import Mathlib

/-!
Verification of the task-tracking backend (FastAPI example).

The repository's `src/api/routers/done.py` defines the two HTTP handlers
`mark_task_as_done` and `unmark_task_as_done`; `src/tests/test_main.py`
exercises them together with the task endpoints.  The crud layer
(`api/cruds/done.py`, `api/cruds/task.py`) and the models are not among
the given sources, so those operations are modelled from the spec
(section 3 and 4 of `spec.md`) and marked as such in their doc comments.

The persistence store is modelled as an explicit state: a list of task
rows and a list of done-marker rows.  Machine-level concerns (sessions,
async I/O) are out of scope per the spec; each crud call is recorded in a
trace of persistence operations so that the check-then-act ordering
claims can be stated.
-/

namespace TaskApp

/-- A task row: `tasks(id PK, title)` per the spec's persisted state layout. -/
structure Task where
  id : Int
  title : String
deriving Repr, DecidableEq

/-- A done-marker row: `done(task_id)` per the spec's persisted state layout
(the optional own id is omitted; `task_id` is the unique key). -/
structure Done where
  task_id : Int
deriving Repr, DecidableEq

instance : BEq Done := instBEqOfDecidableEq
instance : BEq Task := instBEqOfDecidableEq

/-- The persistence store: the two tables plus the auto-increment counter the
persistence layer uses to assign task ids. -/
structure DBState where
  tasks : List Task
  dones : List Done
  nextId : Int
deriving Repr, DecidableEq

/-- Result of the crud lookup `get_done` as seen by the Python routers.
The Python annotation promises a `task_model.Done`, but the router code in
`done.py` also guards against `None` and against a bare `int`, so the
embedding makes all three shapes representable. -/
inductive LookupResult where
  | record (d : Done)
  | absent
  | rawInt (n : Int)
deriving Repr, DecidableEq

/-- An HTTP outcome: either a value (FastAPI returns it with status 200) or
an `HTTPException` with a status code and a detail message. -/
inductive HttpResult (α : Type) where
  | ok (val : α)
  | error (status : Nat) (detail : String)
deriving Repr, DecidableEq

/-- The HTTP status code of a result: a returned value maps to 200, an
`HTTPException` carries its own code. -/
def statusOf {α : Type} : HttpResult α → Nat
  | .ok _ => 200
  | .error s _ => s

/-- Whether a result is an `HTTPException`. -/
def isError {α : Type} : HttpResult α → Bool
  | .ok _ => false
  | .error _ _ => true

/-- One persistence operation, for the trace of a handler call. -/
inductive POp where
  | readDone (task_id : Int)
  | insertDone (task_id : Int)
  | deleteDone (d : Done)
deriving Repr, DecidableEq

/-- Whether a persistence operation mutates the store. -/
def isMutation : POp → Bool
  | .readDone _ => false
  | .insertDone _ => true
  | .deleteDone _ => true

/-- Modelled from the spec: `get_done(task_id) → Done or absent` — "read
current marker state"; the marker is keyed by `task_id` (`api/cruds/done.py`
is not among the given sources).  It reads only the done table. -/
def get_done (db : DBState) (task_id : Int) : LookupResult :=
  match db.dones.find? (fun d => d.task_id == task_id) with
  | some d => .record d
  | none => .absent

/-- Modelled from the spec: `create_done` persists a new Done row for
`task_id` and returns the created marker (`api/cruds/done.py` is not among
the given sources). -/
def create_done (db : DBState) (task_id : Int) : DBState × Done :=
  ({ db with dones := db.dones ++ [⟨task_id⟩] }, ⟨task_id⟩)

/-- Modelled from the spec: `delete_done` deletes the marker row identified
by the record instance passed as `original` (`api/cruds/done.py` is not
among the given sources). -/
def delete_done (db : DBState) (original : Done) : DBState :=
  { db with dones := db.dones.erase original }

/-- Embedding of `mark_task_as_done` from `src/api/routers/done.py`:
fetch the marker with `get_done`; if it `is not None`, raise
`HTTPException(400, "Done already exists")`; otherwise return
`create_done(db, task_id)`.  The third component records the persistence
operations in the order the handler issues them. -/
def mark_task_as_done (db : DBState) (task_id : Int) :
    DBState × HttpResult Done × List POp :=
  let done := get_done db task_id
  if done ≠ LookupResult.absent then
    (db, .error 400 "Done already exists", [.readDone task_id])
  else
    let res := create_done db task_id
    (res.1, .ok res.2, [.readDone task_id, .insertDone task_id])

/-- Embedding of `unmark_task_as_done` from `src/api/routers/done.py`:
fetch the marker with `get_done`; if it is a bare `int`, raise a 404 whose
detail embeds that value; if it `is None`, raise
`HTTPException(404, "Done not found")`; otherwise call
`delete_done(db, original := done)` on the fetched record and return no
content.  The third component records the persistence operations in order. -/
def unmark_task_as_done (db : DBState) (task_id : Int) :
    DBState × HttpResult Unit × List POp :=
  match get_done db task_id with
  | .rawInt n => (db, .error 404 ("unchi~^" ++ toString n), [.readDone task_id])
  | .absent => (db, .error 404 "Done not found", [.readDone task_id])
  | .record d => (delete_done db d, .ok (), [.readDone task_id, .deleteDone d])

/-- Modelled from the spec: the `done` boolean surfaced to clients is exactly
`exists(Done row for this task_id)` (the task router and cruds that compute
it are not among the given sources). -/
def doneFlag (db : DBState) (task_id : Int) : Bool :=
  db.dones.any (fun d => d.task_id == task_id)

/-- Modelled from the spec: `create(title) → Task` persists a new row with
the given title and an id auto-assigned by the persistence layer
(`api/cruds/task.py` is not among the given sources). -/
def create_task (db : DBState) (title : String) : DBState × Task :=
  let t : Task := { id := db.nextId, title := title }
  ({ db with tasks := db.tasks ++ [t], nextId := db.nextId + 1 }, t)

/-- Modelled from the spec: `get(id) → Task or absent` — lookup by id
(`api/cruds/task.py` is not among the given sources). -/
def get_task (db : DBState) (id : Int) : Option Task :=
  db.tasks.find? (fun t => t.id == id)

/-- Modelled from the spec: `list() → sequence of Task (with derived done
flag)` in insertion order (`api/cruds/task.py` is not among the given
sources). -/
def list_tasks (db : DBState) : List (Task × Bool) :=
  db.tasks.map (fun t => (t, doneFlag db t.id))

/-- Modelled from the spec: `update(id, new_title) → Task` fails with
NotFound (404) if id does not exist; otherwise overwrites the title of that
row and returns the updated record (`api/routers/task.py` and
`api/cruds/task.py` are not among the given sources). -/
def update_task (db : DBState) (id : Int) (new_title : String) :
    DBState × HttpResult Task :=
  match db.tasks.find? (fun t => t.id == id) with
  | none => (db, .error 404 "Task not found")
  | some t =>
    ({ db with tasks :=
        db.tasks.map (fun u => if u.id == id then { u with title := new_title } else u) },
     .ok { t with title := new_title })

/-- States of the done table reachable through the mark and unmark handlers,
starting from any store whose done table is empty. -/
inductive Reachable : DBState → Prop where
  | init (tasks : List Task) (n : Int) : Reachable ⟨tasks, [], n⟩
  | mark (db : DBState) (tid : Int) :
      Reachable db → Reachable (mark_task_as_done db tid).1
  | unmark (db : DBState) (tid : Int) :
      Reachable db → Reachable (unmark_task_as_done db tid).1

/-- The done table has at most one row per task id, stated as pairwise
distinctness of the `task_id` keys. -/
def DonesUnique (db : DBState) : Prop :=
  db.dones.Pairwise (fun a b => a.task_id ≠ b.task_id)

/-- The scenario exercised by `test_done_flg`: mark, mark, unmark, unmark on
the same task id, threading the store through the four handler calls; yields
the four HTTP status codes and the final store. -/
def markMarkUnmarkUnmark (db : DBState) (tid : Int) :
    Nat × Nat × Nat × Nat × DBState :=
  let r1 := mark_task_as_done db tid
  let r2 := mark_task_as_done r1.1 tid
  let r3 := unmark_task_as_done r2.1 tid
  let r4 := unmark_task_as_done r3.1 tid
  (statusOf r1.2.1, statusOf r2.2.1, statusOf r3.2.1, statusOf r4.2.1, r4.1)

/-! ### Basic lemmas about the crud layer -/

theorem Done.eq_mk_iff {d : Done} {tid : Int} : d = ⟨tid⟩ ↔ d.task_id = tid := by
  constructor
  · intro h
    rw [h]
  · intro h
    cases d
    cases h
    rfl

theorem get_done_ne_rawInt (db : DBState) (tid n : Int) :
    get_done db tid ≠ LookupResult.rawInt n := by
  unfold get_done
  cases h : db.dones.find? (fun d => d.task_id == tid) <;> simp

theorem get_done_eq_absent {db : DBState} {tid : Int} :
    get_done db tid = LookupResult.absent ↔ ∀ d ∈ db.dones, d.task_id ≠ tid := by
  unfold get_done
  constructor
  · intro h d hd
    cases hfind : db.dones.find? (fun d => d.task_id == tid) with
    | none =>
      have := List.find?_eq_none.mp hfind d hd
      simpa using this
    | some x =>
      rw [hfind] at h
      cases h
  · intro h
    have hnone : db.dones.find? (fun d => d.task_id == tid) = none := by
      rw [List.find?_eq_none]
      intro x hx
      simpa using h x hx
    rw [hnone]

theorem get_done_eq_record {db : DBState} {tid : Int} {d : Done} :
    get_done db tid = LookupResult.record d ↔
      db.dones.find? (fun x => x.task_id == tid) = some d := by
  unfold get_done
  cases h : db.dones.find? (fun x => x.task_id == tid) <;> simp

theorem get_done_record_mem {db : DBState} {tid : Int} {d : Done}
    (h : get_done db tid = LookupResult.record d) :
    d ∈ db.dones ∧ d.task_id = tid := by
  rw [get_done_eq_record] at h
  refine ⟨List.mem_of_find?_eq_some h, ?_⟩
  simpa using List.find?_some h

theorem get_done_cases (db : DBState) (tid : Int) :
    get_done db tid = LookupResult.absent ∨
      ∃ d, get_done db tid = LookupResult.record d := by
  unfold get_done
  cases h : db.dones.find? (fun d => d.task_id == tid) with
  | none => exact Or.inl rfl
  | some d => exact Or.inr ⟨d, rfl⟩

theorem find?_eq_none_of_absent {db : DBState} {tid : Int}
    (h : get_done db tid = LookupResult.absent) :
    db.dones.find? (fun d => d.task_id == tid) = none := by
  rw [List.find?_eq_none]
  intro x hx
  simpa using get_done_eq_absent.mp h x hx

theorem doneFlag_eq_true_iff {db : DBState} {tid : Int} :
    doneFlag db tid = true ↔ ∃ d ∈ db.dones, d.task_id = tid := by
  unfold doneFlag
  rw [List.any_eq_true]
  constructor
  · rintro ⟨d, hd, h⟩
    exact ⟨d, hd, by simpa using h⟩
  · rintro ⟨d, hd, h⟩
    exact ⟨d, hd, by simpa using h⟩

/-! ### Unfolding lemmas for the two handlers -/

theorem mark_of_not_absent {db : DBState} {tid : Int}
    (h : get_done db tid ≠ LookupResult.absent) :
    mark_task_as_done db tid =
      (db, .error 400 "Done already exists", [.readDone tid]) := by
  simp only [mark_task_as_done]
  rw [if_pos h]

theorem mark_of_absent {db : DBState} {tid : Int}
    (h : get_done db tid = LookupResult.absent) :
    mark_task_as_done db tid =
      ({ db with dones := db.dones ++ [⟨tid⟩] }, .ok ⟨tid⟩,
        [.readDone tid, .insertDone tid]) := by
  simp only [mark_task_as_done, create_done]
  rw [if_neg (by simp [h])]

theorem unmark_of_absent {db : DBState} {tid : Int}
    (h : get_done db tid = LookupResult.absent) :
    unmark_task_as_done db tid =
      (db, .error 404 "Done not found", [.readDone tid]) := by
  simp only [unmark_task_as_done, h]

theorem unmark_of_record {db : DBState} {tid : Int} {d : Done}
    (h : get_done db tid = LookupResult.record d) :
    unmark_task_as_done db tid =
      (delete_done db d, .ok (), [.readDone tid, .deleteDone d]) := by
  simp only [unmark_task_as_done, h]

/-! ### The at-most-one-marker invariant -/

theorem donesUnique_mark {db : DBState} (tid : Int) (h : DonesUnique db) :
    DonesUnique (mark_task_as_done db tid).1 := by
  by_cases habs : get_done db tid = LookupResult.absent
  · rw [mark_of_absent habs]
    show List.Pairwise (fun a b : Done => a.task_id ≠ b.task_id)
      (db.dones ++ [({ task_id := tid } : Done)])
    rw [List.pairwise_append]
    refine ⟨h, List.pairwise_singleton _ _, ?_⟩
    intro a ha b hb
    simp only [List.mem_singleton] at hb
    rw [hb]
    exact get_done_eq_absent.mp habs a ha
  · rw [mark_of_not_absent habs]
    exact h

theorem donesUnique_unmark {db : DBState} (tid : Int) (h : DonesUnique db) :
    DonesUnique (unmark_task_as_done db tid).1 := by
  rcases get_done_cases db tid with habs | ⟨d, hrec⟩
  · rw [unmark_of_absent habs]
    exact h
  · rw [unmark_of_record hrec]
    exact List.Pairwise.sublist (List.erase_sublist d db.dones) h

theorem reachable_donesUnique {db : DBState} (h : Reachable db) : DonesUnique db := by
  induction h with
  | init tasks n => exact List.Pairwise.nil
  | mark db tid _ ih => exact donesUnique_mark tid ih
  | unmark db tid _ ih => exact donesUnique_unmark tid ih

theorem length_filter_le_one_of_pairwise {l : List Done}
    (h : l.Pairwise (fun a b => a.task_id ≠ b.task_id)) (tid : Int) :
    (l.filter (fun d => d.task_id == tid)).length ≤ 1 := by
  induction l with
  | nil => simp
  | cons a l ih =>
    rw [List.pairwise_cons] at h
    rw [List.filter_cons]
    by_cases ha : a.task_id = tid
    · have hnil : l.filter (fun d => d.task_id == tid) = [] := by
        rw [List.filter_eq_nil_iff]
        intro b hb hbt
        have hb2 : b.task_id = tid := by simpa using hbt
        exact h.1 b hb (by rw [ha, hb2])
      simp [ha, hnil]
    · simp only [beq_iff_eq, ha, if_false]
      exact ih h.2

theorem dones_nodup_of_unique {db : DBState} (hu : DonesUnique db) :
    db.dones.Nodup :=
  hu.imp (fun hab => by
    intro hEq
    exact hab (by rw [hEq]))

theorem doneFlag_erase_eq_false {db : DBState} {tid : Int} {d : Done}
    (hu : DonesUnique db) (hmem : d ∈ db.dones) (hdt : d.task_id = tid) :
    doneFlag (delete_done db d) tid = false := by
  rw [Bool.eq_false_iff]
  intro htrue
  rcases doneFlag_eq_true_iff.mp htrue with ⟨e, he, het⟩
  have he2 := (List.Nodup.mem_erase_iff (dones_nodup_of_unique hu)).mp he
  have hne : e.task_id ≠ d.task_id :=
    List.Pairwise.forall (fun _ _ h => h.symm) hu he2.2 hmem he2.1
  exact hne (het.trans hdt.symm)

/-! ### The claims -/

/-- Claim C1: for every task_id and every state reachable through the mark
and unmark operations, at most one Done row exists for that task_id, and the
done boolean reported for a task equals the existence of a Done row for its
id. -/
theorem C1_at_most_one_done_and_flag (db : DBState) (h : Reachable db) (tid : Int) :
    (db.dones.filter (fun d => d.task_id == tid)).length ≤ 1 ∧
    (doneFlag db tid = true ↔ ∃ d ∈ db.dones, d.task_id = tid) :=
  ⟨length_filter_le_one_of_pairwise (reachable_donesUnique h) tid,
   doneFlag_eq_true_iff⟩

/-- Witness for C1: the state reached by one mark from an empty store. -/
theorem C1_at_most_one_done_and_flag_witness :
    (((mark_task_as_done ⟨[], [], 0⟩ 1).1).dones.filter
        (fun d => d.task_id == 1)).length ≤ 1 ∧
    (doneFlag (mark_task_as_done ⟨[], [], 0⟩ 1).1 1 = true ↔
      ∃ d ∈ (mark_task_as_done ⟨[], [], 0⟩ 1).1.dones, d.task_id = 1) :=
  C1_at_most_one_done_and_flag _ (Reachable.mark _ 1 (Reachable.init [] 0)) 1

/-- Claim C2: mark(task_id) fails with HTTP 400 and message
"Done already exists" if and only if get_done(task_id) returns an existing
marker; otherwise it creates a Done row for task_id (ABSENT to MARKED) and
returns the created marker with status 200. -/
theorem C2_mark_semantics (db : DBState) (tid : Int) :
    ((∃ d, get_done db tid = LookupResult.record d) ↔
      (mark_task_as_done db tid).2.1 = .error 400 "Done already exists") ∧
    (get_done db tid = LookupResult.absent →
      (mark_task_as_done db tid).2.1 = .ok ⟨tid⟩ ∧
      statusOf (mark_task_as_done db tid).2.1 = 200 ∧
      (mark_task_as_done db tid).1.dones = db.dones ++ [⟨tid⟩] ∧
      doneFlag db tid = false ∧
      doneFlag (mark_task_as_done db tid).1 tid = true) := by
  rcases get_done_cases db tid with habs | ⟨d, hrec⟩
  · constructor
    · constructor
      · rintro ⟨d, hd⟩
        rw [habs] at hd
        cases hd
      · intro herr
        rw [mark_of_absent habs] at herr
        cases herr
    · intro _
      rw [mark_of_absent habs]
      refine ⟨rfl, rfl, rfl, ?_, ?_⟩
      · rw [Bool.eq_false_iff]
        intro htrue
        rcases doneFlag_eq_true_iff.mp htrue with ⟨e, he, het⟩
        exact get_done_eq_absent.mp habs e he het
      · exact doneFlag_eq_true_iff.mpr ⟨⟨tid⟩, by simp, rfl⟩
  · have hna : get_done db tid ≠ LookupResult.absent := by
      rw [hrec]
      simp
    constructor
    · constructor
      · intro _
        rw [mark_of_not_absent hna]
      · intro _
        exact ⟨d, hrec⟩
    · intro habs
      rw [habs] at hrec
      cases hrec

/-- Witness for C2: marking task 1 on an empty store succeeds with the fresh
marker and sets the done flag. -/
theorem C2_mark_semantics_witness :
    (mark_task_as_done ⟨[], [], 0⟩ 1).2.1 = .ok ⟨1⟩ ∧
    statusOf (mark_task_as_done ⟨[], [], 0⟩ 1).2.1 = 200 ∧
    (mark_task_as_done ⟨[], [], 0⟩ 1).1.dones = [] ++ [⟨1⟩] ∧
    doneFlag ⟨[], [], 0⟩ 1 = false ∧
    doneFlag (mark_task_as_done ⟨[], [], 0⟩ 1).1 1 = true :=
  (C2_mark_semantics ⟨[], [], 0⟩ 1).2 rfl

/-- Claim C3: unmark(task_id) fails with HTTP 404 and message
"Done not found" if and only if get_done(task_id) returns absent; otherwise
it deletes the marker row identified by the record instance just fetched,
transitions MARKED to ABSENT, and returns no content with status 200. -/
theorem C3_unmark_semantics (db : DBState) (tid : Int) (hu : DonesUnique db) :
    (get_done db tid = LookupResult.absent ↔
      (unmark_task_as_done db tid).2.1 = .error 404 "Done not found") ∧
    (∀ d, get_done db tid = LookupResult.record d →
      unmark_task_as_done db tid =
        (delete_done db d, .ok (), [.readDone tid, .deleteDone d]) ∧
      statusOf (unmark_task_as_done db tid).2.1 = 200 ∧
      doneFlag (unmark_task_as_done db tid).1 tid = false) := by
  rcases get_done_cases db tid with habs | ⟨d0, hrec⟩
  · constructor
    · constructor
      · intro _
        rw [unmark_of_absent habs]
      · intro _
        exact habs
    · intro d hd
      rw [habs] at hd
      cases hd
  · constructor
    · constructor
      · intro habs
        rw [habs] at hrec
        cases hrec
      · intro herr
        rw [unmark_of_record hrec] at herr
        cases herr
    · intro d hd
      rw [hrec] at hd
      injection hd with hd
      rw [← hd]
      rcases get_done_record_mem hrec with ⟨hmem, hdt⟩
      refine ⟨unmark_of_record hrec, ?_, ?_⟩
      · rw [unmark_of_record hrec]
        rfl
      · rw [unmark_of_record hrec]
        exact doneFlag_erase_eq_false hu hmem hdt

/-- Witness for C3: unmarking task 1 in a store whose done table is exactly
that marker deletes it and clears the flag. -/
theorem C3_unmark_semantics_witness :
    unmark_task_as_done ⟨[], [⟨1⟩], 0⟩ 1 =
      (delete_done ⟨[], [⟨1⟩], 0⟩ ⟨1⟩, .ok (), [.readDone 1, .deleteDone ⟨1⟩]) ∧
    statusOf (unmark_task_as_done ⟨[], [⟨1⟩], 0⟩ 1).2.1 = 200 ∧
    doneFlag (unmark_task_as_done ⟨[], [⟨1⟩], 0⟩ 1).1 1 = false :=
  (C3_unmark_semantics ⟨[], [⟨1⟩], 0⟩ 1 (by unfold DonesUnique; decide)).2 ⟨1⟩ rfl

theorem get_done_after_create {db : DBState} {tid : Int}
    (h : get_done db tid = LookupResult.absent) :
    get_done { db with dones := db.dones ++ [⟨tid⟩] } tid =
      LookupResult.record ⟨tid⟩ := by
  rw [get_done_eq_record]
  show (db.dones ++ [({ task_id := tid } : Done)]).find?
      (fun x => x.task_id == tid) = _
  rw [List.find?_append, find?_eq_none_of_absent h]
  simp

theorem not_mem_of_absent {db : DBState} {tid : Int}
    (h : get_done db tid = LookupResult.absent) :
    (⟨tid⟩ : Done) ∉ db.dones := by
  intro hm
  exact get_done_eq_absent.mp h ⟨tid⟩ hm rfl

theorem erase_append_fresh {db : DBState} {tid : Int}
    (h : get_done db tid = LookupResult.absent) :
    (db.dones ++ [({ task_id := tid } : Done)]).erase
      ({ task_id := tid } : Done) = db.dones := by
  rw [List.erase_append_right _ (not_mem_of_absent h), List.erase_cons_head]
  simp

/-- Claim C4: for every freshly created task (no marker for its id yet), the
sequence mark, mark, unmark, unmark on its id yields exactly the statuses
200, 400, 200, 404 in that order, and ends in the starting state. -/
theorem C4_mark_mark_unmark_unmark (db : DBState) (tid : Int)
    (h : get_done db tid = LookupResult.absent) :
    markMarkUnmarkUnmark db tid = (200, 400, 200, 404, db) := by
  have hrec : get_done { db with dones := db.dones ++ [⟨tid⟩] } tid =
      LookupResult.record ⟨tid⟩ := get_done_after_create h
  have hna : get_done { db with dones := db.dones ++ [⟨tid⟩] } tid ≠
      LookupResult.absent := by
    rw [hrec]
    simp
  have e4 : delete_done { db with dones := db.dones ++ [⟨tid⟩] }
      ({ task_id := tid } : Done) = db := by
    show DBState.mk db.tasks
      ((db.dones ++ [({ task_id := tid } : Done)]).erase ({ task_id := tid } : Done))
      db.nextId = db
    rw [erase_append_fresh h]
  simp [markMarkUnmarkUnmark, mark_of_absent h, mark_of_not_absent hna,
    unmark_of_record hrec, e4, unmark_of_absent h, statusOf]

/-- Witness for C4: the scenario on task 1 against an empty store. -/
theorem C4_mark_mark_unmark_unmark_witness :
    markMarkUnmarkUnmark ⟨[], [], 0⟩ 1 = (200, 400, 200, 404, ⟨[], [], 0⟩) :=
  C4_mark_mark_unmark_unmark ⟨[], [], 0⟩ 1 rfl

/-- Claim C5: for a task_id with no existing marker, mark succeeds even when
no Task with that id exists; the handler performs no task-existence check
(its outcome is independent of the task table), so orphan markers are
permitted. -/
theorem C5_no_task_existence_check (db : DBState) (tid : Int)
    (hmarker : get_done db tid = LookupResult.absent)
    (htask : ∀ t ∈ db.tasks, t.id ≠ tid) :
    (mark_task_as_done db tid).2.1 = .ok ⟨tid⟩ ∧
    statusOf (mark_task_as_done db tid).2.1 = 200 ∧
    (mark_task_as_done db tid).1.dones = db.dones ++ [⟨tid⟩] ∧
    get_task (mark_task_as_done db tid).1 tid = none ∧
    (∀ tasks2, (mark_task_as_done { db with tasks := tasks2 } tid).2 =
        (mark_task_as_done db tid).2 ∧
      (mark_task_as_done { db with tasks := tasks2 } tid).1.dones =
        (mark_task_as_done db tid).1.dones) := by
  have e1 := mark_of_absent hmarker
  refine ⟨by rw [e1], by rw [e1]; rfl, by rw [e1], ?_, ?_⟩
  · rw [e1]
    show db.tasks.find? (fun t => t.id == tid) = none
    rw [List.find?_eq_none]
    intro t ht
    simpa using htask t ht
  · intro tasks2
    have hm2 : get_done { db with tasks := tasks2 } tid = LookupResult.absent :=
      hmarker
    rw [mark_of_absent hm2, e1]
    exact ⟨rfl, rfl⟩

/-- Witness for C5: marking task 5 on an empty store (no task 5 exists)
succeeds and leaves an orphan marker. -/
theorem C5_no_task_existence_check_witness :
    (mark_task_as_done ⟨[], [], 0⟩ 5).2.1 = .ok ⟨5⟩ ∧
    statusOf (mark_task_as_done ⟨[], [], 0⟩ 5).2.1 = 200 ∧
    get_task (mark_task_as_done ⟨[], [], 0⟩ 5).1 5 = none :=
  ⟨(C5_no_task_existence_check ⟨[], [], 0⟩ 5 rfl (by simp)).1,
   (C5_no_task_existence_check ⟨[], [], 0⟩ 5 rfl (by simp)).2.1,
   (C5_no_task_existence_check ⟨[], [], 0⟩ 5 rfl (by simp)).2.2.2.1⟩

/-- Claim C6: the defensive raw-int branch in unmark is unreachable: for
every state and task_id, get_done never returns a bare identifier, so
unmark's behaviour is fully determined by the absent/marker distinction. -/
theorem C6_defensive_branch_unreachable (db : DBState) (tid : Int) :
    (∀ n, get_done db tid ≠ LookupResult.rawInt n) ∧
    ((get_done db tid = LookupResult.absent ∧
        unmark_task_as_done db tid =
          (db, .error 404 "Done not found", [.readDone tid])) ∨
      (∃ d, get_done db tid = LookupResult.record d ∧
        unmark_task_as_done db tid =
          (delete_done db d, .ok (), [.readDone tid, .deleteDone d]))) := by
  refine ⟨get_done_ne_rawInt db tid, ?_⟩
  rcases get_done_cases db tid with habs | ⟨d, hrec⟩
  · exact Or.inl ⟨habs, unmark_of_absent habs⟩
  · exact Or.inr ⟨d, hrec, unmark_of_record hrec⟩

/-- Witness for C6: on the empty store the lookup for task 1 is not a bare
integer. -/
theorem C6_defensive_branch_unreachable_witness :
    get_done ⟨[], [], 0⟩ 1 ≠ LookupResult.rawInt 7 :=
  (C6_defensive_branch_unreachable ⟨[], [], 0⟩ 1).1 7

/-- Claim C7: within every single mark or unmark call, the existence check
(get_done) is the first persistence operation and completes before the
decision; the check and the mutation are two separate operations in the
trace rather than one atomic conditional write. -/
theorem C7_check_then_act (db : DBState) (tid : Int) :
    ((mark_task_as_done db tid).2.2 = [POp.readDone tid] ∨
      (mark_task_as_done db tid).2.2 = [POp.readDone tid, POp.insertDone tid]) ∧
    ((unmark_task_as_done db tid).2.2 = [POp.readDone tid] ∨
      ∃ d, (unmark_task_as_done db tid).2.2 =
        [POp.readDone tid, POp.deleteDone d]) ∧
    isMutation (POp.readDone tid) = false ∧
    isMutation (POp.insertDone tid) = true ∧
    (∀ d, isMutation (POp.deleteDone d) = true) := by
  refine ⟨?_, ?_, rfl, rfl, fun d => rfl⟩
  · by_cases habs : get_done db tid = LookupResult.absent
    · rw [mark_of_absent habs]
      exact Or.inr rfl
    · rw [mark_of_not_absent habs]
      exact Or.inl rfl
  · rcases get_done_cases db tid with habs | ⟨d, hrec⟩
    · rw [unmark_of_absent habs]
      exact Or.inl rfl
    · rw [unmark_of_record hrec]
      exact Or.inr ⟨d, rfl⟩

/-- Witness for C7: the trace of marking task 1 on the empty store starts
with the read. -/
theorem C7_check_then_act_witness :
    (mark_task_as_done ⟨[], [], 0⟩ 1).2.2 = [POp.readDone 1] ∨
    (mark_task_as_done ⟨[], [], 0⟩ 1).2.2 = [POp.readDone 1, POp.insertDone 1] :=
  (C7_check_then_act ⟨[], [], 0⟩ 1).1

/-- Claim C10: mark and unmark are atomic on failure: whenever the result is
an HTTPException, the store is unchanged and the trace contains no mutating
persistence operation. -/
theorem C10_no_mutation_on_failure (db : DBState) (tid : Int) :
    (isError (mark_task_as_done db tid).2.1 = true →
      (mark_task_as_done db tid).1 = db ∧
      ∀ op ∈ (mark_task_as_done db tid).2.2, isMutation op = false) ∧
    (isError (unmark_task_as_done db tid).2.1 = true →
      (unmark_task_as_done db tid).1 = db ∧
      ∀ op ∈ (unmark_task_as_done db tid).2.2, isMutation op = false) := by
  constructor
  · intro herr
    by_cases habs : get_done db tid = LookupResult.absent
    · rw [mark_of_absent habs] at herr
      simp [isError] at herr
    · rw [mark_of_not_absent habs]
      refine ⟨rfl, ?_⟩
      intro op hop
      simp only [List.mem_singleton] at hop
      rw [hop]
      rfl
  · intro herr
    rcases get_done_cases db tid with habs | ⟨d, hrec⟩
    · rw [unmark_of_absent habs]
      refine ⟨rfl, ?_⟩
      intro op hop
      simp only [List.mem_singleton] at hop
      rw [hop]
      rfl
    · rw [unmark_of_record hrec] at herr
      simp [isError] at herr

/-- Witness for C10: a failing mark (marker already present) and a failing
unmark (no marker) each leave the store unchanged. -/
theorem C10_no_mutation_on_failure_witness :
    (mark_task_as_done ⟨[], [⟨1⟩], 0⟩ 1).1 = ⟨[], [⟨1⟩], 0⟩ ∧
    (unmark_task_as_done ⟨[], [], 0⟩ 1).1 = ⟨[], [], 0⟩ :=
  ⟨((C10_no_mutation_on_failure ⟨[], [⟨1⟩], 0⟩ 1).1 (by decide)).1,
   ((C10_no_mutation_on_failure ⟨[], [], 0⟩ 1).2 (by decide)).1⟩

theorem find?_map_retitle (l : List Task) (id : Int) (nt : String) (j : Int) :
    (l.map (fun u => if u.id == id then { u with title := nt } else u)).find?
        (fun u => u.id == j) =
      (l.find? (fun u => u.id == j)).map
        (fun u => if u.id == id then { u with title := nt } else u) := by
  rw [List.find?_map]
  have hp : ((fun u : Task => u.id == j) ∘
      (fun u => if u.id == id then { u with title := nt } else u)) =
      (fun u : Task => u.id == j) := by
    funext u
    by_cases h : (u.id == id) = true <;> simp [Function.comp, h]
  rw [hp]

/-- Claim C8: update(id, new_title) fails with NotFound when no task with
that id exists; when the task exists, it overwrites only the title: the
returned record and every subsequent get/list show the new title with the id
unchanged and the done status preserved. -/
theorem C8_update_semantics (db : DBState) (id : Int) (nt : String) :
    (db.tasks.find? (fun t => t.id == id) = none →
      update_task db id nt = (db, .error 404 "Task not found")) ∧
    (∀ t, db.tasks.find? (fun u => u.id == id) = some t →
      (update_task db id nt).2 = .ok { t with title := nt } ∧
      ({ t with title := nt } : Task).id = t.id ∧
      (update_task db id nt).1.tasks.find? (fun u => u.id == id) =
        some { t with title := nt } ∧
      (∀ j, j ≠ id →
        (update_task db id nt).1.tasks.find? (fun u => u.id == j) =
          db.tasks.find? (fun u => u.id == j)) ∧
      (update_task db id nt).1.dones = db.dones ∧
      (∀ j, doneFlag (update_task db id nt).1 j = doneFlag db j)) := by
  constructor
  · intro hnone
    unfold update_task
    rw [hnone]
  · intro t ht
    have h1 : (update_task db id nt).1.tasks =
        db.tasks.map (fun u => if u.id == id then { u with title := nt } else u) := by
      unfold update_task
      rw [ht]
    have h2 : (update_task db id nt).2 = .ok { t with title := nt } := by
      unfold update_task
      rw [ht]
    have h3 : (update_task db id nt).1.dones = db.dones := by
      unfold update_task
      rw [ht]
    have hid : (t.id == id) = true :=
      @List.find?_some Task (fun u => u.id == id) t db.tasks ht
    have htid : t.id = id := by simpa using hid
    refine ⟨h2, rfl, ?_, ?_, h3, ?_⟩
    · rw [h1, find?_map_retitle, ht]
      simp [htid]
    · intro j hj
      rw [h1, find?_map_retitle]
      cases hf : db.tasks.find? (fun u => u.id == j) with
      | none => rfl
      | some u =>
        have hu : u.id = j := by
          simpa using @List.find?_some Task (fun u => u.id == j) u db.tasks hf
        simp
        intro hc
        exact absurd (hu.symm.trans hc) hj
    · intro j
      unfold doneFlag
      rw [h3]

/-- Witness for C8: updating task 1's title succeeds and is visible on
lookup; updating a task in an empty store fails with 404. -/
theorem C8_update_semantics_witness :
    (update_task ⟨[⟨1, "B"⟩], [], 2⟩ 1 "B2").2 = .ok ⟨1, "B2"⟩ ∧
    (update_task ⟨[⟨1, "B"⟩], [], 2⟩ 1 "B2").1.tasks.find?
      (fun u => u.id == 1) = some ⟨1, "B2"⟩ ∧
    (update_task ⟨[⟨1, "B"⟩], [], 2⟩ 1 "B2").1.dones = [] ∧
    update_task ⟨[], [], 0⟩ 1 "X" = (⟨[], [], 0⟩, .error 404 "Task not found") :=
  ⟨((C8_update_semantics ⟨[⟨1, "B"⟩], [], 2⟩ 1 "B2").2 ⟨1, "B"⟩ rfl).1,
   ((C8_update_semantics ⟨[⟨1, "B"⟩], [], 2⟩ 1 "B2").2 ⟨1, "B"⟩ rfl).2.2.1,
   ((C8_update_semantics ⟨[⟨1, "B"⟩], [], 2⟩ 1 "B2").2 ⟨1, "B"⟩ rfl).2.2.2.2.1,
   (C8_update_semantics ⟨[], [], 0⟩ 1 "X").1 rfl⟩

/-- Claim C9: creating a task with a title and reading it back yields a
record whose title equals the one sent, with the persistence-assigned id and
done equal to false (stated for a store where the fresh id is unused). -/
theorem C9_create_roundtrip (db : DBState) (title : String)
    (hfresh : ∀ t ∈ db.tasks, t.id ≠ db.nextId)
    (hdone : doneFlag db db.nextId = false) :
    (create_task db title).2.title = title ∧
    (create_task db title).2.id = db.nextId ∧
    get_task (create_task db title).1 db.nextId = some (create_task db title).2 ∧
    doneFlag (create_task db title).1 db.nextId = false ∧
    ((create_task db title).2, false) ∈ list_tasks (create_task db title).1 := by
  refine ⟨rfl, rfl, ?_, ?_, ?_⟩
  · show (db.tasks ++ [({ id := db.nextId, title := title } : Task)]).find?
      (fun t => t.id == db.nextId) = some { id := db.nextId, title := title }
    have hnone : db.tasks.find? (fun t => t.id == db.nextId) = none := by
      rw [List.find?_eq_none]
      intro t ht
      simpa using hfresh t ht
    rw [List.find?_append, hnone]
    simp
  · exact hdone
  · show (({ id := db.nextId, title := title } : Task), false) ∈
      (db.tasks ++ [({ id := db.nextId, title := title } : Task)]).map
        (fun t => (t, doneFlag (create_task db title).1 t.id))
    rw [List.mem_map]
    refine ⟨{ id := db.nextId, title := title }, by simp, ?_⟩
    exact congrArg
      (fun b => (({ id := db.nextId, title := title } : Task), b)) hdone

/-- Witness for C9: creating a task titled "A" on the empty store and
reading it back. -/
theorem C9_create_roundtrip_witness :
    (create_task ⟨[], [], 0⟩ "A").2.title = "A" ∧
    (create_task ⟨[], [], 0⟩ "A").2.id = (⟨[], [], 0⟩ : DBState).nextId ∧
    get_task (create_task ⟨[], [], 0⟩ "A").1 (⟨[], [], 0⟩ : DBState).nextId =
      some (create_task ⟨[], [], 0⟩ "A").2 ∧
    doneFlag (create_task ⟨[], [], 0⟩ "A").1 (⟨[], [], 0⟩ : DBState).nextId = false ∧
    ((create_task ⟨[], [], 0⟩ "A").2, false) ∈
      list_tasks (create_task ⟨[], [], 0⟩ "A").1 :=
  C9_create_roundtrip ⟨[], [], 0⟩ "A" (by simp) rfl

end TaskApp
